import Mathlib

/-!
Verification development for the Baikal material system
(`src/App/Scene/material.h` of the RadeonRays SDK).

The header declares the data model (input descriptor table, typed value
store, dirty flag, two-sidedness flag, the two Bxdf subtypes) and the
operation signatures.  The implementation file `material.cpp` is not part
of the given sources, so each operation body below is modelled from the
specification document; such definitions carry a doc comment starting
with `Modelled from the spec:`.

The value payloads (`RadeonRays::float4`, `Texture const*`,
`Material const*`) are opaque to this component: the code only stores and
returns them.  They are therefore modelled as type parameters `F`, `T`,
`M` with decidable equality.
-/

namespace Baikal

/-- Material input type (`Material::InputType` of the header): a closed
enumeration of the three admissible value kinds. -/
inductive InputType : Type
  | kFloat4
  | kTexture
  | kMaterial
deriving DecidableEq, Repr

/-- Input description (`Material::InputInfo` of the header): short name,
human readable description, and the set of supported types.  The C++
`std::set<InputType>` is modelled as a list; only membership matters. -/
structure InputInfo : Type where
  name : String
  desc : String
  supported_types : List InputType
deriving DecidableEq, Repr

/-- Input value description (`Material::InputValue` of the header): a
type tag together with a union of the three payloads, modelled as a sum
type (exactly one union member is active, selected by the tag). -/
inductive InputValue (F T M : Type) : Type
  | float_value (v : F)
  | tex_value (t : T)
  | mat_value (m : M)
deriving DecidableEq, Repr

/-- The type tag (`InputValue::type` of the header) carried by a value. -/
def InputValue.typeTag {F T M : Type} : InputValue F T M → InputType
  | .float_value _ => .kFloat4
  | .tex_value _ => .kTexture
  | .mat_value _ => .kMaterial

/-- Full input state (`Material::Input` of the header): the descriptor
paired with the currently bound value.  `none` models the
undeclared/unbound state before any successful bind. -/
structure Input (F T M : Type) : Type where
  info : InputInfo
  value : Option (InputValue F T M)
deriving DecidableEq, Repr

/-- The element produced by the material-reference enumerator for one
input: the bound material reference, when the current value is one,
recorded together with the input name it came from. -/
def matEntry {F T M : Type} (p : String × Input F T M) : Option (String × M) :=
  match p.2.value with
  | some (.mat_value r) => some (p.1, r)
  | _ => none

/-- The element produced by the texture (asset) enumerator for one input:
the bound texture reference, when the current value is one. -/
def texEntry {F T M : Type} (p : String × Input F T M) : Option (String × T) :=
  match p.2.value with
  | some (.tex_value r) => some (p.1, r)
  | _ => none

/-- The error taxonomy of the spec.  The C++ code surfaces both cases as
`std::runtime_error` throws; the spec names them UnknownInput and
UnsupportedKind. -/
inductive MatError : Type
  | UnknownInput
  | UnsupportedKind
deriving DecidableEq, Repr

/-- Lexicographic comparison of character lists, the order used by
`std::less<std::string>` (`std::map` key order). -/
def charListLt : List Char → List Char → Bool
  | _, [] => false
  | [], _ :: _ => true
  | a :: as, b :: bs => if a < b then true else if b < a then false else charListLt as bs

/-- The strict lexicographic order on input names. -/
def keyLt (a b : String) : Bool :=
  charListLt a.data b.data

/-- Lookup of an input by name in the input map, modelling
`m_inputs.find(name)` on `std::map<std::string, Input>`. -/
def findInput {F T M : Type} : List (String × Input F T M) → String → Option (Input F T M)
  | [], _ => none
  | (k, i) :: rest, n => if n = k then some i else findInput rest n

/-- Ordered insertion with replacement, modelling `std::map` insertion
(`m_inputs[name] = input`): keys stay strictly sorted and unique. -/
def insertInput {F T M : Type} (n : String) (inp : Input F T M) :
    List (String × Input F T M) → List (String × Input F T M)
  | [] => [(n, inp)]
  | (k, i) :: rest =>
    if keyLt n k then (n, inp) :: (k, i) :: rest
    else if n = k then (n, inp) :: rest
    else (k, i) :: insertInput n inp rest

/-- In-place update of the bound value of input `n`, modelling the write
through the map iterator in a successful bind. -/
def updateValue {F T M : Type} (n : String) (v : InputValue F T M) :
    List (String × Input F T M) → List (String × Input F T M)
  | [] => []
  | (k, i) :: rest =>
    if n = k then (k, { i with value := some v }) :: rest
    else (k, i) :: updateValue n v rest

/-- The per-instance state of `Material` (header lines 128-138):
the input map (`std::map` ordered by name), the mutable dirty flag and
the two-sidedness flag. -/
structure Material (F T M : Type) : Type where
  m_inputs : List (String × Input F T M)
  m_dirty : Bool
  m_twosided : Bool
deriving DecidableEq, Repr

namespace Material

/-- Modelled from the spec: the `Material()` constructor (material.cpp is
not in src).  The change-state flag starts true at construction; the
two-sidedness flag defaults to false; no inputs are declared yet. -/
def construct (F T M : Type) : Material F T M :=
  { m_inputs := [], m_dirty := true, m_twosided := false }

/-- Modelled from the spec: `Material::RegisterInput` (material.cpp is
not in src).  Adds or replaces the descriptor for `name` and resets that
the bound value of that name to the undeclared state. -/
def RegisterInput {F T M : Type} (m : Material F T M) (name desc : String)
    (supported_types : List InputType) : Material F T M :=
  let inp : Input F T M := ⟨⟨name, desc, supported_types⟩, none⟩
  { m with m_inputs := insertInput name inp m.m_inputs }

/-- Modelled from the spec: `Material::ClearInputs` (material.cpp is not
in src).  Removes all declared names and their values. -/
def ClearInputs {F T M : Type} (m : Material F T M) : Material F T M :=
  { m with m_inputs := [] }

/-- Modelled from the spec: the three `Material::SetInputValue` overloads
(material.cpp is not in src), merged into one function on the tagged
value (the C++ overload determines the tag).  Fails with UnknownInput if
the name was never declared, with UnsupportedKind if the value kind is
not among the declared supported types; on failure the state is returned
unchanged (the bind is atomic).  On success the value is stored and the
dirty flag is unconditionally set to true. -/
def SetInputValue {F T M : Type} [DecidableEq InputType] (m : Material F T M)
    (name : String) (v : InputValue F T M) : Material F T M × Option MatError :=
  match findInput m.m_inputs name with
  | none => (m, some .UnknownInput)
  | some inp =>
    if v.typeTag ∈ inp.info.supported_types then
      ({ m with m_inputs := updateValue name v m.m_inputs, m_dirty := true }, none)
    else
      (m, some .UnsupportedKind)

/-- Modelled from the spec: `Material::GetInputValue` (material.cpp is
not in src).  Fails with UnknownInput if the name was never declared;
otherwise returns the currently stored value (possibly unbound). -/
def GetInputValue {F T M : Type} (m : Material F T M) (name : String) :
    Except MatError (Option (InputValue F T M)) :=
  match findInput m.m_inputs name with
  | none => .error .UnknownInput
  | some inp => .ok inp.value

/-- `Material::IsTwoSided` (header line 113). -/
def IsTwoSided {F T M : Type} (m : Material F T M) : Bool :=
  m.m_twosided

/-- Modelled from the spec: `Material::SetTwoSided` (material.cpp is not
in src).  A plain boolean flag write, orthogonal to the change-state
flag. -/
def SetTwoSided {F T M : Type} (m : Material F T M) (twosided : Bool) : Material F T M :=
  { m with m_twosided := twosided }

/-- `Material::IsDirty` (header line 118). -/
def IsDirty {F T M : Type} (m : Material F T M) : Bool :=
  m.m_dirty

/-- Modelled from the spec: `Material::SetDirty` (material.cpp is not in
src).  Writes the change-state flag (the field is `mutable`, so the C++
method is `const`). -/
def SetDirty {F T M : Type} (m : Material F T M) (dirty : Bool) : Material F T M :=
  { m with m_dirty := dirty }

/-- Modelled from the spec: `Material::CreateMaterialIterator`
(material.cpp is not in src).  Snapshot, taken at creation time, of the
inputs whose currently bound value is a material reference; each yielded
element is recorded here with the input name it came from, so that the
enumerated name set can be stated. -/
def CreateMaterialIterator {F T M : Type} (m : Material F T M) : List (String × M) :=
  m.m_inputs.filterMap matEntry

/-- Modelled from the spec: `Material::CreateTextureIterator`
(material.cpp is not in src).  Snapshot of the inputs whose currently
bound value is a texture (asset) reference. -/
def CreateTextureIterator {F T M : Type} (m : Material F T M) : List (String × T) :=
  m.m_inputs.filterMap texEntry

/-- Modelled from the spec: `Material::CreateInputIterator` (material.cpp
is not in src).  Snapshot of every declared input, in the order of the
underlying ordered map. -/
def CreateInputIterator {F T M : Type} (m : Material F T M) : List (String × Input F T M) :=
  m.m_inputs

/-- Well-formedness of the input map: the keys are strictly increasing in
the lexicographic string order, as maintained by `std::map`. -/
def WF {F T M : Type} (m : Material F T M) : Prop :=
  (m.m_inputs.map Prod.fst).Pairwise fun a b => keyLt a b = true

/-- The states a `Material` can actually be in: those produced by the
constructor and closed under the mutating operations of the class. -/
inductive Reachable {F T M : Type} : Material F T M → Prop
  | construct : Reachable (construct F T M)
  | registerInput (m : Material F T M) (n d : String) (ks : List InputType) :
      Reachable m → Reachable (m.RegisterInput n d ks)
  | clearInputs (m : Material F T M) : Reachable m → Reachable m.ClearInputs
  | setInputValue (m : Material F T M) (n : String) (v : InputValue F T M) :
      Reachable m → Reachable (m.SetInputValue n v).1
  | setTwoSided (m : Material F T M) (b : Bool) : Reachable m → Reachable (m.SetTwoSided b)
  | setDirty (m : Material F T M) (b : Bool) : Reachable m → Reachable (m.SetDirty b)

end Material

/-- `SingleBxdf::BxdfType` (header lines 148-162). -/
inductive BxdfType : Type
  | kZero
  | kLambert
  | kIdealReflect
  | kIdealRefract
  | kMicrofacetBlinn
  | kMicrofacetBeckmann
  | kMicrofacetGGX
  | kEmissive
  | kPassthrough
  | kTranslucent
  | kMicrofacetRefractionGGX
  | kMicrofacetRefractionBeckmann
deriving DecidableEq, Repr

/-- `SingleBxdf` (header lines 145-171): a `Material` plus the private
discriminant `m_type`. -/
structure SingleBxdf (F T M : Type) : Type where
  base : Material F T M
  m_type : BxdfType
deriving DecidableEq, Repr

namespace SingleBxdf

/-- Modelled from the spec: the `SingleBxdf(BxdfType)` constructor
(material.cpp is not in src).  It fixes the initial discriminant and
starts from the freshly constructed base-material state; the concrete
input declarations it performs are not visible in the given sources and
are irrelevant to the claims, so the base starts with the empty shape. -/
def construct (F T M : Type) (t : BxdfType) : SingleBxdf F T M :=
  { base := Material.construct F T M, m_type := t }

/-- `SingleBxdf::GetBxdfType` (header line 166). -/
def GetBxdfType {F T M : Type} (s : SingleBxdf F T M) : BxdfType :=
  s.m_type

/-- Modelled from the spec: `SingleBxdf::SetBxdfType` (material.cpp is
not in src).  The header gives a plain setter for the private field
`m_type`; the spec describes no further effect for it (in particular the
spec makes successful binds the only operations forcing the change-state
flag true), so it is modelled as the field assignment alone. -/
def SetBxdfType {F T M : Type} (s : SingleBxdf F T M) (t : BxdfType) : SingleBxdf F T M :=
  { s with m_type := t }

/-- The inherited `SetInputValue`, acting on the base-material state. -/
def SetInputValue {F T M : Type} (s : SingleBxdf F T M) (name : String)
    (v : InputValue F T M) : SingleBxdf F T M × Option MatError :=
  ({ s with base := (s.base.SetInputValue name v).1 }, (s.base.SetInputValue name v).2)

/-- The inherited `SetTwoSided`, acting on the base-material state. -/
def SetTwoSided {F T M : Type} (s : SingleBxdf F T M) (b : Bool) : SingleBxdf F T M :=
  { s with base := s.base.SetTwoSided b }

/-- The inherited `SetDirty`, acting on the base-material state. -/
def SetDirty {F T M : Type} (s : SingleBxdf F T M) (b : Bool) : SingleBxdf F T M :=
  { s with base := s.base.SetDirty b }

end SingleBxdf

/-- `MultiBxdf::Type` (header lines 176-181); `Type` is not a legal Lean
identifier, hence the name. -/
inductive MultiBxdfType : Type
  | kLayered
  | kFresnelBlend
  | kMix
deriving DecidableEq, Repr

/-- `MultiBxdf` (header lines 173-190): a `Material` plus the private
discriminant `m_type`. -/
structure MultiBxdf (F T M : Type) : Type where
  base : Material F T M
  m_type : MultiBxdfType
deriving DecidableEq, Repr

namespace MultiBxdf

/-- Modelled from the spec: the `MultiBxdf(Type)` constructor
(material.cpp is not in src), analogous to `SingleBxdf.construct`. -/
def construct (F T M : Type) (t : MultiBxdfType) : MultiBxdf F T M :=
  { base := Material.construct F T M, m_type := t }

/-- `MultiBxdf::GetType` (header line 185). -/
def GetType {F T M : Type} (s : MultiBxdf F T M) : MultiBxdfType :=
  s.m_type

/-- Modelled from the spec: `MultiBxdf::SetType` (material.cpp is not in
src), modelled as the plain field assignment like
`SingleBxdf.SetBxdfType`. -/
def SetType {F T M : Type} (s : MultiBxdf F T M) (t : MultiBxdfType) : MultiBxdf F T M :=
  { s with m_type := t }

/-- The inherited `SetInputValue`, acting on the base-material state. -/
def SetInputValue {F T M : Type} (s : MultiBxdf F T M) (name : String)
    (v : InputValue F T M) : MultiBxdf F T M × Option MatError :=
  ({ s with base := (s.base.SetInputValue name v).1 }, (s.base.SetInputValue name v).2)

/-- The inherited `SetTwoSided`, acting on the base-material state. -/
def SetTwoSided {F T M : Type} (s : MultiBxdf F T M) (b : Bool) : MultiBxdf F T M :=
  { s with base := s.base.SetTwoSided b }

/-- The inherited `SetDirty`, acting on the base-material state. -/
def SetDirty {F T M : Type} (s : MultiBxdf F T M) (b : Bool) : MultiBxdf F T M :=
  { s with base := s.base.SetDirty b }

end MultiBxdf

/-- A sample material used to exercise the operations at concrete inputs:
three declared inputs with different supported-kind sets.  The payload
types are instantiated with `Nat` (the references of the C++ code are
opaque addresses to this component). -/
def sampleMaterial : Material Nat Nat Nat :=
  (((Material.construct Nat Nat Nat).RegisterInput "albedo" "Albedo color"
        [InputType.kFloat4, InputType.kTexture]).RegisterInput "base" "Base material"
      [InputType.kMaterial]).RegisterInput "layer" "Layer material or texture"
    [InputType.kMaterial, InputType.kTexture]

end Baikal

open Baikal

/-! ### Properties of the key order -/

theorem charListLt_iff_lex (l₁ l₂ : List Char) :
    charListLt l₁ l₂ = true ↔ List.Lex (· < ·) l₁ l₂ := by
  induction l₁ generalizing l₂ with
  | nil =>
    cases l₂ with
    | nil =>
      refine iff_of_false (by simp [charListLt]) ?_
      exact List.Lex.not_nil_right _ _
    | cons b bs =>
      refine iff_of_true (by simp [charListLt]) ?_
      exact List.Lex.nil
  | cons a as ih =>
    cases l₂ with
    | nil =>
      refine iff_of_false (by simp [charListLt]) ?_
      exact List.Lex.not_nil_right _ _
    | cons b bs =>
      by_cases hab : a < b
      · refine iff_of_true (by simp [charListLt, hab]) ?_
        exact List.Lex.rel hab
      · by_cases hba : b < a
        · refine iff_of_false (by simp [charListLt, hab, hba]) ?_
          intro hcon
          cases hcon with
          | cons h => exact lt_irrefl a hba
          | rel h => exact hab h
        · have heq : a = b := le_antisymm (not_lt.mp hba) (not_lt.mp hab)
          subst heq
          rw [show charListLt (a :: as) (a :: bs) = charListLt as bs by
            simp [charListLt, lt_irrefl]]
          rw [ih bs]
          exact (List.Lex.cons_iff).symm

theorem keyLt_iff (a b : String) : keyLt a b = true ↔ a.data < b.data :=
  charListLt_iff_lex a.data b.data

theorem keyLt_trans {a b c : String} (h₁ : keyLt a b = true) (h₂ : keyLt b c = true) :
    keyLt a c = true := by
  rw [keyLt_iff] at h₁ h₂ ⊢
  exact lt_trans h₁ h₂

theorem keyLt_ne {a b : String} (h : keyLt a b = true) : a ≠ b := by
  rw [keyLt_iff] at h
  intro he
  subst he
  exact lt_irrefl _ h

theorem keyLt_of_not_keyLt {n k : String} (h₁ : ¬ keyLt n k = true) (h₂ : ¬ n = k) :
    keyLt k n = true := by
  rw [keyLt_iff] at h₁ ⊢
  rcases lt_trichotomy k.data n.data with h | h | h
  · exact h
  · exact absurd (String.toList_inj.mp h) fun he => h₂ he.symm
  · exact absurd h h₁

/-! ### Properties of the input map operations -/

theorem findInput_updateValue_self {F T M : Type} {l : List (String × Input F T M)}
    {n : String} {i : Input F T M} (v : InputValue F T M)
    (h : findInput l n = some i) :
    findInput (updateValue n v l) n = some { i with value := some v } := by
  induction l with
  | nil => simp [findInput] at h
  | cons p rest ih =>
    obtain ⟨k, j⟩ := p
    by_cases hk : n = k
    · simp only [findInput, updateValue, if_pos hk] at h ⊢
      injection h with h
      subst h
      rfl
    · simp only [findInput, updateValue, if_neg hk] at h ⊢
      exact ih h

theorem findInput_updateValue_ne {F T M : Type} {l : List (String × Input F T M)}
    {n n' : String} (v : InputValue F T M) (h : n' ≠ n) :
    findInput (updateValue n v l) n' = findInput l n' := by
  induction l with
  | nil => rfl
  | cons p rest ih =>
    obtain ⟨k, j⟩ := p
    by_cases hk : n = k
    · subst hk
      simp only [updateValue, if_pos rfl, findInput, if_neg h]
    · by_cases hk' : n' = k
      · simp only [updateValue, if_neg hk, findInput, if_pos hk']
      · simp only [updateValue, if_neg hk, findInput, if_neg hk']
        exact ih

theorem map_fst_updateValue {F T M : Type} (n : String) (v : InputValue F T M) :
    ∀ l : List (String × Input F T M), (updateValue n v l).map Prod.fst = l.map Prod.fst
  | [] => rfl
  | (k, j) :: rest => by
    by_cases hk : n = k
    · simp [updateValue, hk]
    · simp [updateValue, hk, map_fst_updateValue n v rest]

theorem findInput_insertInput_self {F T M : Type} (n : String) (inp : Input F T M) :
    ∀ l : List (String × Input F T M), findInput (insertInput n inp l) n = some inp
  | [] => by simp [insertInput, findInput]
  | (k, j) :: rest => by
    by_cases h1 : keyLt n k = true
    · simp [insertInput, h1, findInput]
    · by_cases h2 : n = k
      · subst h2
        simp [insertInput, h1, findInput]
      · simp [insertInput, h1, h2, findInput, findInput_insertInput_self n inp rest]

theorem mem_keys_insertInput {F T M : Type} {l : List (String × Input F T M)}
    {n a : String} {inp : Input F T M}
    (h : a ∈ (insertInput n inp l).map Prod.fst) :
    a = n ∨ a ∈ l.map Prod.fst := by
  induction l with
  | nil =>
    simp [insertInput] at h
    exact Or.inl h
  | cons p rest ih =>
    obtain ⟨k, j⟩ := p
    by_cases h1 : keyLt n k = true
    · simp only [insertInput, if_pos h1, List.map_cons, List.mem_cons] at h
      simp only [List.map_cons, List.mem_cons]
      tauto
    · by_cases h2 : n = k
      · simp only [insertInput, if_neg h1, if_pos h2, List.map_cons, List.mem_cons] at h
        simp only [List.map_cons, List.mem_cons]
        tauto
      · simp only [insertInput, if_neg h1, if_neg h2, List.map_cons, List.mem_cons] at h
        simp only [List.map_cons, List.mem_cons]
        rcases h with h | h
        · tauto
        · rcases ih h with h' | h' <;> tauto

theorem pairwise_keys_insertInput {F T M : Type} {l : List (String × Input F T M)}
    (n : String) (inp : Input F T M)
    (h : (l.map Prod.fst).Pairwise fun a b => keyLt a b = true) :
    ((insertInput n inp l).map Prod.fst).Pairwise fun a b => keyLt a b = true := by
  induction l with
  | nil => simp [insertInput]
  | cons p rest ih =>
    obtain ⟨k, j⟩ := p
    simp only [List.map_cons, List.pairwise_cons] at h
    obtain ⟨hk, hrest⟩ := h
    by_cases h1 : keyLt n k = true
    · simp only [insertInput, if_pos h1, List.map_cons]
      refine List.Pairwise.cons ?_ (List.Pairwise.cons hk hrest)
      intro x hx
      rcases List.mem_cons.mp hx with rfl | hx'
      · exact h1
      · exact keyLt_trans h1 (hk x hx')
    · by_cases h2 : n = k
      · subst h2
        simp only [insertInput, if_neg h1, if_pos rfl, List.map_cons]
        exact List.Pairwise.cons hk hrest
      · simp only [insertInput, if_neg h1, if_neg h2, List.map_cons]
        refine List.Pairwise.cons ?_ (ih hrest)
        intro x hx
        rcases mem_keys_insertInput (by simpa using hx) with rfl | hx'
        · exact keyLt_of_not_keyLt h1 h2
        · exact hk x hx'

/-! ### Properties of the dependency enumerators and the bind operation -/

theorem matEntry_fst {F T M : Type} {p : String × Input F T M} {q : String × M}
    (h : matEntry p = some q) : q.1 = p.1 := by
  obtain ⟨a, b⟩ := p
  obtain ⟨info, val⟩ := b
  rcases val with _ | v
  · simp [matEntry] at h
  · rcases v with f | t | r
    · simp [matEntry] at h
    · simp [matEntry] at h
    · simp only [matEntry] at h
      injection h with h
      rw [← h]

theorem keys_of_mem_matEntries {F T M : Type} {l : List (String × Input F T M)} {n : String}
    (h : n ∈ (l.filterMap matEntry).map Prod.fst) : n ∈ l.map Prod.fst := by
  induction l with
  | nil => simp at h
  | cons p rest ih =>
    cases hme : matEntry p with
    | none =>
      rw [List.filterMap_cons_none hme] at h
      exact List.mem_cons.mpr (Or.inr (ih h))
    | some q =>
      rw [List.filterMap_cons_some hme, List.map_cons] at h
      rcases List.mem_cons.mp h with h' | h'
      · exact List.mem_cons.mpr (Or.inl (h'.trans (matEntry_fst hme)))
      · exact List.mem_cons.mpr (Or.inr (ih h'))

theorem mem_matEntries_of_find {F T M : Type} {l : List (String × Input F T M)}
    {n : String} {i : Input F T M} {r : M}
    (h : findInput l n = some i) (hv : i.value = some (.mat_value r)) :
    n ∈ (l.filterMap matEntry).map Prod.fst := by
  induction l with
  | nil => simp [findInput] at h
  | cons p rest ih =>
    obtain ⟨k, j⟩ := p
    by_cases hk : n = k
    · subst hk
      simp only [findInput, if_pos rfl] at h
      injection h with h
      subst h
      have hme : matEntry (n, j) = some (n, r) := by
        simp [matEntry, hv]
      rw [List.filterMap_cons_some hme, List.map_cons]
      exact List.mem_cons.mpr (Or.inl rfl)
    · simp only [findInput, if_neg hk] at h
      cases hme : matEntry (k, j) with
      | none =>
        rw [List.filterMap_cons_none hme]
        exact ih h
      | some q =>
        rw [List.filterMap_cons_some hme, List.map_cons]
        exact List.mem_cons.mpr (Or.inr (ih h))

theorem not_mem_matEntries {F T M : Type} {l : List (String × Input F T M)}
    {n : String} {i : Input F T M}
    (hnd : (l.map Prod.fst).Nodup) (h : findInput l n = some i)
    (hv : ∀ r : M, i.value ≠ some (.mat_value r)) :
    n ∉ (l.filterMap matEntry).map Prod.fst := by
  induction l with
  | nil => simp [findInput] at h
  | cons p rest ih =>
    obtain ⟨k, j⟩ := p
    simp only [List.map_cons, List.nodup_cons] at hnd
    obtain ⟨hknot, hnd'⟩ := hnd
    by_cases hk : n = k
    · subst hk
      simp only [findInput, if_pos rfl] at h
      injection h with h
      subst h
      have hme : matEntry (n, j) = none := by
        rcases hj : j.value with _ | v
        · simp [matEntry, hj]
        · rcases v with f | t | r
          · simp [matEntry, hj]
          · simp [matEntry, hj]
          · exact absurd hj (hv r)
      rw [List.filterMap_cons_none hme]
      intro hmem
      exact hknot (keys_of_mem_matEntries hmem)
    · simp only [findInput, if_neg hk] at h
      cases hme : matEntry (k, j) with
      | none =>
        rw [List.filterMap_cons_none hme]
        exact ih hnd' h
      | some q =>
        rw [List.filterMap_cons_some hme, List.map_cons]
        intro hmem
        rcases List.mem_cons.mp hmem with h' | h'
        · exact hk (h'.trans (matEntry_fst hme))
        · exact ih hnd' h h'

theorem setInputValue_success {F T M : Type} {m : Material F T M} {n : String}
    {v : InputValue F T M} (h : (m.SetInputValue n v).2 = none) :
    (m.SetInputValue n v).1 =
        { m with m_inputs := updateValue n v m.m_inputs, m_dirty := true } ∧
      ∃ i, findInput m.m_inputs n = some i ∧ v.typeTag ∈ i.info.supported_types := by
  cases hf : findInput m.m_inputs n with
  | none =>
    unfold Material.SetInputValue at h
    simp only [hf] at h
    exact absurd h (by simp)
  | some i =>
    unfold Material.SetInputValue at h ⊢
    simp only [hf] at h ⊢
    by_cases ht : v.typeTag ∈ i.info.supported_types
    · rw [if_pos ht]
      exact ⟨rfl, i, rfl, ht⟩
    · rw [if_neg ht] at h
      exact absurd h (by simp)

theorem wf_keys_nodup {F T M : Type} {m : Material F T M} (h : m.WF) :
    (m.m_inputs.map Prod.fst).Nodup :=
  h.imp fun hab => keyLt_ne hab

theorem reachable_wf {F T M : Type} {m : Material F T M} (h : Material.Reachable m) :
    m.WF := by
  induction h with
  | construct => simp [Material.WF, Material.construct]
  | registerInput m n d ks _ ih =>
    exact pairwise_keys_insertInput n _ ih
  | clearInputs m _ _ => simp [Material.WF, Material.ClearInputs]
  | setInputValue m n v _ ih =>
    cases hf : findInput m.m_inputs n with
    | none =>
      unfold Material.WF Material.SetInputValue
      simp only [hf]
      exact ih
    | some i =>
      unfold Material.WF Material.SetInputValue
      simp only [hf]
      by_cases ht : v.typeTag ∈ i.info.supported_types
      · rw [if_pos ht]
        have hup : (List.map Prod.fst (updateValue n v m.m_inputs)).Pairwise
            (fun a b => keyLt a b = true) := by
          rw [map_fst_updateValue]
          exact ih
        exact hup
      · rw [if_neg ht]
        exact ih
  | setTwoSided m b _ ih => exact ih
  | setDirty m b _ ih => exact ih

theorem setInputValue_dirty_of_success {F T M : Type} {m : Material F T M} {n : String}
    {v : InputValue F T M} (h : (m.SetInputValue n v).2 = none) :
    (m.SetInputValue n v).1.IsDirty = true := by
  rw [(setInputValue_success h).1]
  rfl

theorem setInputValue_dirty_mono {F T M : Type} (m : Material F T M) (n : String)
    (v : InputValue F T M) (h : m.IsDirty = true) :
    (m.SetInputValue n v).1.IsDirty = true := by
  cases hf : findInput m.m_inputs n with
  | none =>
    unfold Material.SetInputValue
    simp only [hf]
    exact h
  | some i =>
    unfold Material.SetInputValue
    simp only [hf]
    by_cases ht : v.typeTag ∈ i.info.supported_types
    · rw [if_pos ht]
      rfl
    · rw [if_neg ht]
      exact h

theorem getInputValue_after_success {F T M : Type} {m : Material F T M} {n : String}
    {v : InputValue F T M} {i : Input F T M}
    (h : (m.SetInputValue n v).2 = none) (hdecl : findInput m.m_inputs n = some i) :
    (m.SetInputValue n v).1.GetInputValue n = .ok (some v) := by
  rw [(setInputValue_success h).1]
  unfold Material.GetInputValue
  have hfind : findInput (updateValue n v m.m_inputs) n =
      some { i with value := some v } := findInput_updateValue_self v hdecl
  simp only [hfind]

/-! ### The claims -/

/-- C1: for every material instance, every declared input name `n` with
supported-kind set `K`, every kind `k ∈ K` and every value `v` of kind
`k`, binding `v` to `n` via `SetInputValue` succeeds (reports no error),
and a subsequent `GetInputValue n` returns an `InputValue` whose type tag
is `k` and whose stored value equals `v`. -/
theorem C1_bind_then_read {F T M : Type} (m : Material F T M) (n : String)
    (i : Input F T M) (k : InputType) (v : InputValue F T M)
    (hdecl : findInput m.m_inputs n = some i)
    (hk : k ∈ i.info.supported_types) (hv : v.typeTag = k) :
    (m.SetInputValue n v).2 = none ∧
      (m.SetInputValue n v).1.GetInputValue n = .ok (some v) ∧
      v.typeTag = k := by
  have ht : v.typeTag ∈ i.info.supported_types := by
    rw [hv]
    exact hk
  have hsucc : (m.SetInputValue n v).2 = none := by
    unfold Material.SetInputValue
    simp only [hdecl]
    rw [if_pos ht]
  exact ⟨hsucc, getInputValue_after_success hsucc hdecl, hv⟩

/-- C1 witness: binding the float value 5 to the declared input "albedo"
of the sample material succeeds and reads back with tag kFloat4. -/
theorem C1_bind_then_read_witness :
    (sampleMaterial.SetInputValue "albedo" (InputValue.float_value 5)).2 = none ∧
      (sampleMaterial.SetInputValue "albedo"
          (InputValue.float_value 5)).1.GetInputValue "albedo" =
        .ok (some (InputValue.float_value 5)) ∧
      (InputValue.float_value 5 : InputValue Nat Nat Nat).typeTag = InputType.kFloat4 :=
  C1_bind_then_read sampleMaterial "albedo"
    ⟨⟨"albedo", "Albedo color", [InputType.kFloat4, InputType.kTexture]⟩, none⟩
    InputType.kFloat4 (InputValue.float_value 5) (by decide) (by decide) rfl

/-- C2: for every declared input name `n` and every value `v` whose kind
is not among the supported kinds declared for `n`, `SetInputValue` fails
with UnsupportedKind and leaves the state exactly unchanged: the whole
result is the original material paired with the error, so in particular
the stored value of `n` and the dirty flag are as before (the bind is
atomic). -/
theorem C2_unsupported_kind_atomic {F T M : Type} (m : Material F T M) (n : String)
    (i : Input F T M) (v : InputValue F T M)
    (hdecl : findInput m.m_inputs n = some i)
    (hk : v.typeTag ∉ i.info.supported_types) :
    m.SetInputValue n v = (m, some .UnsupportedKind) ∧
      (m.SetInputValue n v).1.GetInputValue n = m.GetInputValue n ∧
      (m.SetInputValue n v).1.IsDirty = m.IsDirty := by
  have heq : m.SetInputValue n v = (m, some .UnsupportedKind) := by
    unfold Material.SetInputValue
    simp only [hdecl]
    rw [if_neg hk]
  exact ⟨heq, by rw [heq], by rw [heq]⟩

/-- C2 witness: binding a float value to the input "base" (which only
supports material references) fails with UnsupportedKind and changes
nothing. -/
theorem C2_unsupported_kind_atomic_witness :
    sampleMaterial.SetInputValue "base" (InputValue.float_value 3) =
        (sampleMaterial, some MatError.UnsupportedKind) ∧
      (sampleMaterial.SetInputValue "base"
          (InputValue.float_value 3)).1.GetInputValue "base" =
        sampleMaterial.GetInputValue "base" ∧
      (sampleMaterial.SetInputValue "base" (InputValue.float_value 3)).1.IsDirty =
        sampleMaterial.IsDirty :=
  C2_unsupported_kind_atomic sampleMaterial "base"
    ⟨⟨"base", "Base material", [InputType.kMaterial]⟩, none⟩
    (InputValue.float_value 3) (by decide) (by decide)

/-- C4: for a name `n` never declared on the instance, both bind and read
fail with UnknownInput; read on `n` still fails after a successful bind
on any other (necessarily different, declared) name; and read on any
declared name returns the currently stored value. -/
theorem C4_unknown_input {F T M : Type} (m : Material F T M) (n : String)
    (v : InputValue F T M) (hund : findInput m.m_inputs n = none) :
    (m.SetInputValue n v).2 = some .UnknownInput ∧
      m.GetInputValue n = .error .UnknownInput ∧
      (∀ (n₂ : String) (v₂ : InputValue F T M), (m.SetInputValue n₂ v₂).2 = none →
        (m.SetInputValue n₂ v₂).1.GetInputValue n = .error .UnknownInput) ∧
      (∀ (n₃ : String) (i : Input F T M), findInput m.m_inputs n₃ = some i →
        m.GetInputValue n₃ = .ok i.value) := by
  have h1 : m.SetInputValue n v = (m, some .UnknownInput) := by
    unfold Material.SetInputValue
    simp only [hund]
  have h2 : m.GetInputValue n = .error .UnknownInput := by
    unfold Material.GetInputValue
    simp only [hund]
  refine ⟨by rw [h1], h2, ?_, ?_⟩
  · intro n₂ v₂ hsucc
    obtain ⟨heq, i₂, hf₂, -⟩ := setInputValue_success hsucc
    have hne : n ≠ n₂ := by
      intro he
      rw [he, hf₂] at hund
      exact Option.noConfusion hund
    rw [heq]
    unfold Material.GetInputValue
    have hnone : findInput (updateValue n₂ v₂ m.m_inputs) n = none := by
      rw [findInput_updateValue_ne v₂ hne]
      exact hund
    simp only [hnone]
  · intro n₃ i hf₃
    unfold Material.GetInputValue
    simp only [hf₃]

/-- C4 witness: "missing" is undeclared on the sample material; bind and
read on it fail with UnknownInput, also after a successful bind on
"albedo", while read on the declared "base" returns its stored (unbound)
value. -/
theorem C4_unknown_input_witness :
    (sampleMaterial.SetInputValue "missing" (InputValue.float_value 2)).2 =
        some MatError.UnknownInput ∧
      sampleMaterial.GetInputValue "missing" = .error .UnknownInput ∧
      (sampleMaterial.SetInputValue "albedo"
          (InputValue.float_value 2)).1.GetInputValue "missing" =
        .error .UnknownInput ∧
      sampleMaterial.GetInputValue "base" = .ok none := by
  have h := C4_unknown_input sampleMaterial "missing" (InputValue.float_value 2) (by decide)
  exact ⟨h.1, h.2.1, h.2.2.1 "albedo" (InputValue.float_value 2) (by decide),
    h.2.2.2 "base" ⟨⟨"base", "Base material", [InputType.kMaterial]⟩, none⟩ (by decide)⟩

/-- C3: the change-state (dirty) flag is true immediately after
construction, is set to true by every successful bind regardless of its
previous value, becomes false through an explicit SetDirty false (and
through no other of the mutating operations, which all preserve a true
flag), and a successful bind performed after SetDirty false flips it back
to true. -/
theorem C3_dirty_flag_lifecycle (F T M : Type) (m : Material F T M) (n d : String)
    (ks : List InputType) (v : InputValue F T M) (b : Bool) :
    (Material.construct F T M).IsDirty = true ∧
      ((m.SetInputValue n v).2 = none → (m.SetInputValue n v).1.IsDirty = true) ∧
      (m.SetDirty false).IsDirty = false ∧
      (((m.SetDirty false).SetInputValue n v).2 = none →
        ((m.SetDirty false).SetInputValue n v).1.IsDirty = true) ∧
      (m.IsDirty = true →
        (m.RegisterInput n d ks).IsDirty = true ∧
          (m.SetInputValue n v).1.IsDirty = true ∧
          (m.SetTwoSided b).IsDirty = true ∧
          m.ClearInputs.IsDirty = true ∧
          (m.SetDirty true).IsDirty = true) := by
  refine ⟨rfl, fun h => setInputValue_dirty_of_success h, rfl,
    fun h => setInputValue_dirty_of_success h, fun h => ⟨h, ?_, h, h, rfl⟩⟩
  exact setInputValue_dirty_mono m n v h

/-- C3 witness: on the sample material, the flag is true at construction,
false after SetDirty false, and true again after a successful bind. -/
theorem C3_dirty_flag_lifecycle_witness :
    (Material.construct Nat Nat Nat).IsDirty = true ∧
      (sampleMaterial.SetDirty false).IsDirty = false ∧
      ((sampleMaterial.SetDirty false).SetInputValue "albedo"
          (InputValue.float_value 2)).1.IsDirty = true ∧
      (sampleMaterial.SetInputValue "albedo" (InputValue.float_value 2)).1.IsDirty = true := by
  have h := C3_dirty_flag_lifecycle Nat Nat Nat sampleMaterial "albedo" "d"
    [InputType.kFloat4] (InputValue.float_value 2) false
  exact ⟨h.1, h.2.2.1, h.2.2.2.1 (by decide), h.2.1 (by decide)⟩

/-- C5: the dependency enumerators are snapshots of the state at creation
time.  If input `n` currently holds a material reference, the
material-reference enumerator created now yields `n`; after a successful
re-bind of `n` to a texture (asset) reference, an enumerator created on
the new state no longer yields `n`, while the previously created
snapshot (a pure value of the old state) is unaffected. -/
theorem C5_enumerator_snapshot {F T M : Type} (m : Material F T M) (n : String)
    (i : Input F T M) (r : M) (tv : T)
    (hwf : m.WF) (hdecl : findInput m.m_inputs n = some i)
    (hmat : i.value = some (.mat_value r))
    (hbind : (m.SetInputValue n (.tex_value tv)).2 = none) :
    n ∈ (m.CreateMaterialIterator).map Prod.fst ∧
      n ∉ ((m.SetInputValue n
          (.tex_value tv)).1.CreateMaterialIterator).map Prod.fst := by
  constructor
  · exact mem_matEntries_of_find hdecl hmat
  · obtain ⟨heq, -⟩ := setInputValue_success hbind
    rw [heq]
    unfold Material.CreateMaterialIterator
    have hnd : ((updateValue n (InputValue.tex_value tv)
        m.m_inputs).map Prod.fst).Nodup := by
      rw [map_fst_updateValue]
      exact wf_keys_nodup hwf
    have hfind : findInput (updateValue n (InputValue.tex_value tv) m.m_inputs) n =
        some { i with value := some (InputValue.tex_value tv) } :=
      findInput_updateValue_self _ hdecl
    have hnv : ∀ r' : M,
        ({ i with value := some (InputValue.tex_value tv) } : Input F T M).value ≠
          some (.mat_value r') := by
      intro r'
      simp
    exact not_mem_matEntries hnd hfind hnv

/-- C5 witness: after binding input "layer" of the sample material to
material reference 7, the material-reference enumerator yields "layer";
after re-binding "layer" to texture reference 9, a fresh enumerator does
not. -/
theorem C5_enumerator_snapshot_witness :
    "layer" ∈ (((sampleMaterial.SetInputValue "layer"
        (InputValue.mat_value 7)).1).CreateMaterialIterator).map Prod.fst ∧
      "layer" ∉ ((((sampleMaterial.SetInputValue "layer"
          (InputValue.mat_value 7)).1).SetInputValue "layer"
          (InputValue.tex_value 9)).1.CreateMaterialIterator).map Prod.fst :=
  C5_enumerator_snapshot (sampleMaterial.SetInputValue "layer" (InputValue.mat_value 7)).1
    "layer"
    ⟨⟨"layer", "Layer material or texture", [InputType.kMaterial, InputType.kTexture]⟩,
      some (InputValue.mat_value 7)⟩
    7 9 (by unfold Material.WF; decide) (by decide) (by decide) (by decide)

/-- C6 counterexample: the discriminant of a Material subtype is NOT
fixed at construction.  The header declares the public setters
`SingleBxdf::SetBxdfType` and `MultiBxdf::SetType`; an instance
constructed with kLambert reports kEmissive after one such call. -/
theorem C6_counterexample_discriminant_not_fixed :
    ((SingleBxdf.construct Nat Nat Nat BxdfType.kLambert).SetBxdfType
        BxdfType.kEmissive).GetBxdfType ≠ BxdfType.kLambert := by
  decide

/-- C6 (amended): the discriminant is set at construction but may later
be changed through SetBxdfType / SetType; apart from these discriminant
setters (which touch nothing but the discriminant), the instance is
mutated only through value binds, two-sidedness toggles and change-state
toggles, none of which touches the discriminant. -/
theorem C6_amended_mutation_surface (F T M : Type) (s : SingleBxdf F T M) (t : BxdfType)
    (u : MultiBxdf F T M) (t' : MultiBxdfType) (n : String) (v : InputValue F T M)
    (b : Bool) :
    (SingleBxdf.construct F T M t).GetBxdfType = t ∧
      (s.SetBxdfType t).GetBxdfType = t ∧
      (s.SetBxdfType t).base = s.base ∧
      (s.SetInputValue n v).1.GetBxdfType = s.GetBxdfType ∧
      (s.SetTwoSided b).GetBxdfType = s.GetBxdfType ∧
      (s.SetDirty b).GetBxdfType = s.GetBxdfType ∧
      (MultiBxdf.construct F T M t').GetType = t' ∧
      (u.SetType t').GetType = t' ∧
      (u.SetType t').base = u.base ∧
      (u.SetInputValue n v).1.GetType = u.GetType ∧
      (u.SetTwoSided b).GetType = u.GetType ∧
      (u.SetDirty b).GetType = u.GetType :=
  ⟨rfl, rfl, rfl, rfl, rfl, rfl, rfl, rfl, rfl, rfl, rfl, rfl⟩

/-- C7: re-declaring a name through RegisterInput overwrites its
descriptor and resets its bound value to the undeclared state (even if a
prior bind succeeded, since the statement holds for an arbitrary
starting state), and input names remain unique within the instance. -/
theorem C7_redeclare_overwrites {F T M : Type} (m : Material F T M) (n d : String)
    (ks : List InputType) (hwf : m.WF) :
    findInput (m.RegisterInput n d ks).m_inputs n = some ⟨⟨n, d, ks⟩, none⟩ ∧
      ((m.RegisterInput n d ks).m_inputs.map Prod.fst).Nodup := by
  constructor
  · exact findInput_insertInput_self n _ m.m_inputs
  · have hwf' : (m.RegisterInput n d ks).WF := pairwise_keys_insertInput n _ hwf
    exact wf_keys_nodup hwf'

/-- C7 witness: after a successful bind of "albedo" on the sample
material, re-declaring "albedo" yields a fresh descriptor with an
undeclared (unbound) value, and names stay unique. -/
theorem C7_redeclare_overwrites_witness :
    findInput (((sampleMaterial.SetInputValue "albedo"
          (InputValue.float_value 3)).1.RegisterInput "albedo" "Albedo redeclared"
          [InputType.kFloat4]).m_inputs) "albedo" =
        some ⟨⟨"albedo", "Albedo redeclared", [InputType.kFloat4]⟩, none⟩ ∧
      ((((sampleMaterial.SetInputValue "albedo"
          (InputValue.float_value 3)).1.RegisterInput "albedo" "Albedo redeclared"
          [InputType.kFloat4]).m_inputs).map Prod.fst).Nodup :=
  C7_redeclare_overwrites (sampleMaterial.SetInputValue "albedo"
      (InputValue.float_value 3)).1
    "albedo" "Albedo redeclared" [InputType.kFloat4] (by unfold Material.WF; decide)

/-- C8: the two-sidedness flag is false immediately after construction,
SetTwoSided stores exactly the given boolean, and the toggle is
orthogonal to the change-state flag: it leaves the dirty flag untouched. -/
theorem C8_two_sided_orthogonal (F T M : Type) (m : Material F T M) (b : Bool) :
    (Material.construct F T M).IsTwoSided = false ∧
      (m.SetTwoSided b).IsTwoSided = b ∧
      (m.SetTwoSided b).IsDirty = m.IsDirty :=
  ⟨rfl, rfl, rfl⟩

/-- C9: the all-inputs enumerator is exactly the content of the ordered
input map: on every reachable material instance it yields the declared
inputs with their names strictly increasing in the lexicographic order
`keyLt` (the `std::map` key order), hence each declared name exactly
once. -/
theorem C9_input_iterator_sorted {F T M : Type} (m : Material F T M)
    (h : Material.Reachable m) :
    m.CreateInputIterator = m.m_inputs ∧
      ((m.CreateInputIterator).map Prod.fst).Pairwise (fun a b => keyLt a b = true) ∧
      ((m.CreateInputIterator).map Prod.fst).Nodup :=
  ⟨rfl, reachable_wf h, wf_keys_nodup (reachable_wf h)⟩

/-- C9 witness: the sample material is reachable and its input iterator
lists "albedo", "base", "layer" in strictly increasing order without
repetition. -/
theorem C9_input_iterator_sorted_witness :
    sampleMaterial.CreateInputIterator = sampleMaterial.m_inputs ∧
      ((sampleMaterial.CreateInputIterator).map Prod.fst).Pairwise
        (fun a b => keyLt a b = true) ∧
      ((sampleMaterial.CreateInputIterator).map Prod.fst).Nodup :=
  C9_input_iterator_sorted sampleMaterial
    (Material.Reachable.registerInput _ "layer" "Layer material or texture"
      [InputType.kMaterial, InputType.kTexture]
      (Material.Reachable.registerInput _ "base" "Base material" [InputType.kMaterial]
        (Material.Reachable.registerInput _ "albedo" "Albedo color"
          [InputType.kFloat4, InputType.kTexture] Material.Reachable.construct)))

/-- C10: the discriminant setters are pure field writes: after
SetBxdfType t (resp. SetType t) the getter returns t, and the rest of
the state — the input map, the two-sided flag and the change-state flag —
is unchanged. -/
theorem C10_discriminant_setter_frame (F T M : Type) (s : SingleBxdf F T M)
    (t : BxdfType) (u : MultiBxdf F T M) (t' : MultiBxdfType) :
    (s.SetBxdfType t).GetBxdfType = t ∧
      (s.SetBxdfType t).base.m_inputs = s.base.m_inputs ∧
      (s.SetBxdfType t).base.IsTwoSided = s.base.IsTwoSided ∧
      (s.SetBxdfType t).base.IsDirty = s.base.IsDirty ∧
      (u.SetType t').GetType = t' ∧
      (u.SetType t').base.m_inputs = u.base.m_inputs ∧
      (u.SetType t').base.IsTwoSided = u.base.IsTwoSided ∧
      (u.SetType t').base.IsDirty = u.base.IsDirty :=
  ⟨rfl, rfl, rfl, rfl, rfl, rfl, rfl, rfl⟩
